import Mathlib

/-!
Verification development for the Flask backend in src/app.py.

The application has three routes:
- GET /         : renders templates/index.html with no arguments
- GET /points   : opens static/data/features.json, parses it as JSON,
                  returns the decoded value to the framework
- GET /polygons : same against static/data/features_poly.json

The embedding models:
- JSON values and an executable parser/serializer for the JSON fragment the
  data files use (the Python json module is an external dependency; numbers
  are modelled as integers, string escapes cover the quote, backslash and
  common control escapes; floats and unicode escapes are outside the scope
  of every claim considered here);
- the file system as a partial map from paths to contents;
- each handler as a pure function from the environment and the incoming
  request to a trace of file effects plus either a return value or an
  uncaught Python exception;
- Flask response conversion: dict/list returns are serialized as JSON with
  an application/json content type, str returns become the raw 200 body,
  other returns raise TypeError, and every uncaught exception becomes the
  framework default 500 page.
-/

/-- JSON values as produced by json.load: objects, arrays, strings, integers,
booleans and null.  Object members keep file order. -/
inductive Json where
  | null : Json
  | bool : Bool → Json
  | num : Int → Json
  | str : List Char → Json
  | arr : List Json → Json
  | obj : List (List Char × Json) → Json

/-- Whitespace characters accepted between JSON tokens (space, tab, newline,
carriage return), as in the json module. -/
def isWsC (c : Char) : Bool :=
  c.toNat = 32 || c.toNat = 9 || c.toNat = 10 || c.toNat = 13

/-- Decimal digit test on a character. -/
def isDigitC (c : Char) : Bool :=
  48 ≤ c.toNat && c.toNat ≤ 57

/-- Numeric value of a decimal digit character. -/
def digitVal (c : Char) : Nat := c.toNat - 48

/-- Character for a decimal digit. -/
def digitChar (d : Nat) : Char := Char.ofNat (48 + d)

/-- Drop leading JSON whitespace. -/
def skipWs : List Char → List Char
  | [] => []
  | c :: cs => if isWsC c then skipWs cs else c :: cs

/-- Parse the body of a JSON string literal after the opening quote,
returning the decoded characters and the input after the closing quote. -/
def parseStringBody : List Char → Option (List Char × List Char)
  | [] => none
  | c :: rest =>
    if c = '"' then some ([], rest)
    else if c = '\\' then
      match rest with
      | [] => none
      | e :: rest2 =>
        if e = '"' then (parseStringBody rest2).map (fun p => ('"' :: p.1, p.2))
        else if e = '\\' then (parseStringBody rest2).map (fun p => ('\\' :: p.1, p.2))
        else if e = 'n' then (parseStringBody rest2).map (fun p => ('\n' :: p.1, p.2))
        else if e = 't' then (parseStringBody rest2).map (fun p => ('\t' :: p.1, p.2))
        else if e = 'r' then (parseStringBody rest2).map (fun p => ('\r' :: p.1, p.2))
        else none
    else (parseStringBody rest).map (fun p => (c :: p.1, p.2))

/-- Consume a run of decimal digits, accumulating their value. -/
def parseDigitsAux : List Char → Nat → Nat × List Char
  | [], acc => (acc, [])
  | c :: rest, acc =>
    if isDigitC c then parseDigitsAux rest (acc * 10 + digitVal c)
    else (acc, c :: rest)

mutual
/-- Parse one JSON value, fuel-bounded.  Returns the value and the unread
suffix of the input. -/
def parseValue : Nat → List Char → Option (Json × List Char)
  | 0, _ => none
  | fuel+1, input =>
    match skipWs input with
    | [] => none
    | c :: rest =>
      if c = 'n' then
        match rest with
        | 'u' :: 'l' :: 'l' :: r => some (.null, r)
        | _ => none
      else if c = 't' then
        match rest with
        | 'r' :: 'u' :: 'e' :: r => some (.bool true, r)
        | _ => none
      else if c = 'f' then
        match rest with
        | 'a' :: 'l' :: 's' :: 'e' :: r => some (.bool false, r)
        | _ => none
      else if c = '"' then
        match parseStringBody rest with
        | some (s, r) => some (.str s, r)
        | none => none
      else if c = '[' then
        match skipWs rest with
        | [] => none
        | d :: rest2 =>
          if d = ']' then some (.arr [], rest2)
          else
            match parseItems fuel (d :: rest2) with
            | some (xs, r) => some (.arr xs, r)
            | none => none
      else if c = '{' then
        match skipWs rest with
        | [] => none
        | d :: rest2 =>
          if d = '}' then some (.obj [], rest2)
          else
            match parseMembers fuel (d :: rest2) with
            | some (kvs, r) => some (.obj kvs, r)
            | none => none
      else if c = '-' then
        match rest with
        | [] => none
        | d :: rest2 =>
          if isDigitC d then
            some (.num (-((parseDigitsAux rest2 (digitVal d)).1 : Int)),
                  (parseDigitsAux rest2 (digitVal d)).2)
          else none
      else if isDigitC c then
        some (.num (Int.ofNat (parseDigitsAux rest (digitVal c)).1),
              (parseDigitsAux rest (digitVal c)).2)
      else none

/-- Parse a non-empty comma-separated item list up to and including the
closing bracket. -/
def parseItems : Nat → List Char → Option (List Json × List Char)
  | 0, _ => none
  | fuel+1, input =>
    match parseValue fuel input with
    | none => none
    | some (v, r1) =>
      match skipWs r1 with
      | [] => none
      | d :: r2 =>
        if d = ',' then
          match parseItems fuel r2 with
          | some (xs, r3) => some (v :: xs, r3)
          | none => none
        else if d = ']' then some ([v], r2)
        else none

/-- Parse a non-empty comma-separated member list up to and including the
closing brace. -/
def parseMembers : Nat → List Char → Option (List (List Char × Json) × List Char)
  | 0, _ => none
  | fuel+1, input =>
    match skipWs input with
    | [] => none
    | c :: r0 =>
      if c = '"' then
        match parseStringBody r0 with
        | none => none
        | some (k, r1) =>
          match skipWs r1 with
          | [] => none
          | d :: r2 =>
            if d = ':' then
              match parseValue fuel r2 with
              | none => none
              | some (v, r3) =>
                match skipWs r3 with
                | [] => none
                | e :: r4 =>
                  if e = ',' then
                    match parseMembers fuel r4 with
                    | some (kvs, r5) => some ((k, v) :: kvs, r5)
                    | none => none
                  else if e = '}' then some ([(k, v)], r4)
                  else none
            else none
      else none
end

/-- Parse a whole document: one JSON value possibly surrounded by
whitespace; anything else is a decode error, as in json.load. -/
def jsonParse (s : String) : Option Json :=
  match parseValue (s.length + 1) s.data with
  | some (v, r) =>
    match skipWs r with
    | [] => some v
    | _ => none
  | none => none

/-- Escape a string for serialization: quote and backslash get a backslash. -/
def escapeChars : List Char → List Char
  | [] => []
  | c :: cs =>
    if c = '"' then '\\' :: ('"' :: escapeChars cs)
    else if c = '\\' then '\\' :: ('\\' :: escapeChars cs)
    else c :: escapeChars cs

/-- Decimal digits of a natural number, most significant first; fuel-bounded
so that the kernel can evaluate it (any fuel above the value works). -/
def natDigitsAux : Nat → Nat → List Char → List Char
  | 0, _, acc => acc
  | f+1, n, acc =>
    if n < 10 then digitChar n :: acc
    else natDigitsAux f (n / 10) (digitChar (n % 10) :: acc)

/-- Decimal digits of a natural number, most significant first. -/
def natDigits (n : Nat) : List Char := natDigitsAux (n + 1) n []

/-- Decimal rendering of an integer. -/
def serInt : Int → List Char
  | Int.ofNat m => natDigits m
  | Int.negSucc m => '-' :: natDigits (m + 1)

/-- Characters of the null keyword. -/
def litNull : List Char := ['n', 'u', 'l', 'l']

/-- Characters of the true keyword. -/
def litTrue : List Char := ['t', 'r', 'u', 'e']

/-- Characters of the false keyword. -/
def litFalse : List Char := ['f', 'a', 'l', 's', 'e']

mutual
/-- Compact serialization of a JSON value, as the framework emits it. -/
def serJson : Json → List Char
  | .null => litNull
  | .bool true => litTrue
  | .bool false => litFalse
  | .num n => serInt n
  | .str s => '"' :: (escapeChars s ++ ['"'])
  | .arr xs => '[' :: (serItemsJ xs ++ [']'])
  | .obj kvs => '{' :: (serMembersJ kvs ++ ['}'])

/-- Serialize array items, comma separated. -/
def serItemsJ : List Json → List Char
  | [] => []
  | [x] => serJson x
  | x :: y :: xs => serJson x ++ (',' :: serItemsJ (y :: xs))

/-- Serialize object members, comma separated. -/
def serMembersJ : List (List Char × Json) → List Char
  | [] => []
  | [(k, v)] => '"' :: (escapeChars k ++ ('"' :: (':' :: serJson v)))
  | (k, v) :: m :: kvs =>
    ('"' :: (escapeChars k ++ ('"' :: (':' :: serJson v)))) ++ (',' :: serMembersJ (m :: kvs))
end

/-- Serialize a JSON document to a string. -/
def jsonSerialize (v : Json) : String := String.mk (serJson v)

mutual
/-- Fuel needed by parseValue to read a serialized value back. -/
def jsize : Json → Nat
  | .null => 1
  | .bool _ => 1
  | .num _ => 1
  | .str _ => 1
  | .arr xs => 1 + sizeItems xs
  | .obj kvs => 1 + sizeMembers kvs

/-- Fuel needed by parseItems for a serialized item list. -/
def sizeItems : List Json → Nat
  | [] => 0
  | x :: xs => 1 + jsize x + sizeItems xs

/-- Fuel needed by parseMembers for a serialized member list. -/
def sizeMembers : List (List Char × Json) → Nat
  | [] => 0
  | (_, v) :: kvs => 1 + jsize v + sizeMembers kvs
end

/-- A suffix a serialized number may safely be followed by: empty, or not
starting with a digit. -/
def headOk : List Char → Bool
  | [] => true
  | c :: _ => !isDigitC c

example : jsonParse (String.mk ['t', 'r', 'u', 'e']) = some (.bool true) := rfl

example : jsonParse (String.mk ['{', '}']) = some (.obj []) := rfl

example :
    jsonParse (String.mk ['[', '1', '2', ',', ' ', 'n', 'u', 'l', 'l', ']'])
      = some (.arr [.num 12, .null]) := rfl

example :
    jsonParse (String.mk ['{', '"', 'a', '"', ':', '-', '7', '}'])
      = some (.obj [(['a'], .num (-7))]) := rfl

example : jsonParse (String.mk ['a']) = none := rfl

example : jsonParse (String.mk ['{', '"', 'a', '"', ':', '}']) = none := rfl

example : jsonParse (String.mk []) = none := rfl

example :
    jsonSerialize (.obj [(['a'], .arr [.num 1, .str ['b']])])
      = String.mk ['{', '"', 'a', '"', ':', '[', '1', ',', '"', 'b', '"', ']', '}'] := by
  simp [jsonSerialize, serJson, serMembersJ, serItemsJ, escapeChars, serInt, natDigits,
    natDigitsAux, digitChar]

/-! ## The web application -/

/-- The file system visible to the process: a partial map from relative
paths to file contents.  A path that is absent models a missing or
unreadable file. -/
def FileSystem := String → Option String

/-- The template folder: a partial map from template names to the markup
that rendering them (with no arguments) produces. -/
def Templates := String → Option String

/-- Process environment of the application: current file system state and
the template folder. -/
structure Env where
  fs : FileSystem
  templates : Templates

/-- An incoming HTTP GET request.  The handlers in app.py never touch the
request object, so only its observable parts are carried. -/
structure HttpRequest where
  queryParams : List (String × String)
  headers : List (String × String)

/-- File and template effects a handler performs, in order. -/
inductive Effect where
  | fsOpen : String → Effect
  | fsRead : String → String → Effect
  | fsClose : String → Effect
  | fsWrite : String → String → Effect
  | render : String → Effect
deriving DecidableEq

/-- Python exceptions that can escape a handler. -/
inductive PyError where
  | fileNotFound : String → PyError
  | jsonDecodeError : PyError
  | typeError : PyError
  | templateNotFound : String → PyError
deriving DecidableEq

/-- An HTTP response: status code, content type and body. -/
structure HttpResponse where
  status : Nat
  contentType : String
  body : String
deriving DecidableEq

/-- Fixed path of the points data file (app.py line 48). -/
def pointsPath : String := "static/data/features.json"

/-- Fixed path of the polygons data file (app.py line 59). -/
def polygonsPath : String := "static/data/features_poly.json"

/-- Name of the main page template (app.py line 38). -/
def indexTemplate : String := "index.html"

/-- JSON content type. -/
def jsonMime : String := "application/json"

/-- Default HTML content type of the framework. -/
def htmlMime : String := "text/html"

/-- Body of the framework default error page. -/
def defaultErrorBody : String := "Internal Server Error"

/-- Modelled from the Flask framework (external dependency): the default
error response produced for any uncaught exception. -/
def internalServerError : HttpResponse :=
  { status := 500, contentType := htmlMime, body := defaultErrorBody }

/-- Embeds the body of the points handler (app.py lines 48-49):
with open('static/data/features.json', 'r') as points_file:
    return json.load(points_file).
The with block closes the handle on both the normal exit and the exit
where json.load raises, so the close effect is emitted on both paths;
a failed open acquires no handle and emits no effect. -/
def pointsHandler (env : Env) (req : HttpRequest) :
    List Effect × Except PyError Json :=
  match env.fs pointsPath with
  | none => ([], .error (.fileNotFound pointsPath))
  | some contents =>
    ([.fsOpen pointsPath, .fsRead pointsPath contents, .fsClose pointsPath],
     match jsonParse contents with
     | some v => .ok v
     | none => .error .jsonDecodeError)

/-- Embeds the body of the polygons handler (app.py lines 59-60), identical
to the points handler against the second fixed path. -/
def polygonsHandler (env : Env) (req : HttpRequest) :
    List Effect × Except PyError Json :=
  match env.fs polygonsPath with
  | none => ([], .error (.fileNotFound polygonsPath))
  | some contents =>
    ([.fsOpen polygonsPath, .fsRead polygonsPath contents, .fsClose polygonsPath],
     match jsonParse contents with
     | some v => .ok v
     | none => .error .jsonDecodeError)

/-- Embeds the body of the home handler (app.py line 38):
return render_template('index.html'). -/
def homeHandler (env : Env) (req : HttpRequest) :
    List Effect × Except PyError String :=
  match env.templates indexTemplate with
  | none => ([], .error (.templateNotFound indexTemplate))
  | some html => ([.render indexTemplate], .ok html)

/-- Modelled from the Flask framework (external dependency): conversion of
a handler return value into a response.  A dict or list return is
serialized as JSON with the application/json content type; a str return
becomes the raw body with the default content type; any other Python value
raises TypeError. -/
def flaskMakeResponse : Json → Except PyError HttpResponse
  | .obj kvs => .ok { status := 200, contentType := jsonMime, body := jsonSerialize (.obj kvs) }
  | .arr xs => .ok { status := 200, contentType := jsonMime, body := jsonSerialize (.arr xs) }
  | .str s => .ok { status := 200, contentType := htmlMime, body := String.mk s }
  | _ => .error .typeError

/-- Modelled from the Flask framework (external dependency): an uncaught
exception anywhere while producing the response yields the default 500
page. -/
def flaskFinalize : Except PyError HttpResponse → HttpResponse
  | .ok resp => resp
  | .error _ => internalServerError

/-- The three bound routes of the application. -/
inductive Route where
  | root : Route
  | points : Route
  | polygons : Route

/-- Dispatch one request: run the matched handler and convert its outcome
into an HTTP response, also exposing the effect trace. -/
def dispatch (env : Env) (route : Route) (req : HttpRequest) :
    List Effect × HttpResponse :=
  match route with
  | .root =>
    match homeHandler env req with
    | (t, .ok html) => (t, { status := 200, contentType := htmlMime, body := html })
    | (t, .error _) => (t, internalServerError)
  | .points =>
    match pointsHandler env req with
    | (t, .ok v) => (t, flaskFinalize (flaskMakeResponse v))
    | (t, .error _) => (t, internalServerError)
  | .polygons =>
    match polygonsHandler env req with
    | (t, .ok v) => (t, flaskFinalize (flaskMakeResponse v))
    | (t, .error _) => (t, internalServerError)

/-- Response part of a dispatched request. -/
def respOf (env : Env) (route : Route) (req : HttpRequest) : HttpResponse :=
  (dispatch env route req).2

/-- Trace part of a dispatched request. -/
def traceOf (env : Env) (route : Route) (req : HttpRequest) : List Effect :=
  (dispatch env route req).1

/-- Whether an effect mutates the file system. -/
def Effect.isWrite : Effect → Bool
  | .fsWrite _ _ => true
  | _ => false

/-- Interpretation of one effect on the file system: only a write changes
it. -/
def applyEffect (fs : FileSystem) : Effect → FileSystem
  | .fsWrite p c => fun q => if q = p then some c else fs q
  | _ => fs

/-- Interpretation of a whole trace on the file system. -/
def applyEffects (fs : FileSystem) (es : List Effect) : FileSystem :=
  es.foldl applyEffect fs

/-- The module state of app.py: the source defines no mutable module-level
state besides the app object itself, so nothing is threaded between
requests. -/
abbrev ServerState := Unit

/-- One step of the server: handle a request against the file system state
at that moment.  The server state is returned unchanged because no handler
touches it. -/
def serverStep (s : ServerState) (env : Env) (route : Route) (req : HttpRequest) :
    ServerState × HttpResponse :=
  (s, respOf env route req)

/-- Run the server over a sequence of requests; each list entry carries the
environment (file system snapshot) at the time of that request. -/
def serverRun (s : ServerState) : List (Env × Route × HttpRequest) → List HttpResponse
  | [] => []
  | (env, route, req) :: rest =>
    let step := serverStep s env route req
    step.2 :: serverRun step.1 rest

/-! ## Helper lemmas about the JSON embedding -/

theorem jsize_pos (v : Json) : 1 ≤ jsize v := by
  cases v <;> simp [jsize]

theorem sizeItems_pos (xs : List Json) (h : xs ≠ []) : 1 ≤ sizeItems xs := by
  cases xs with
  | nil => exact absurd rfl h
  | cons x xs => simp [sizeItems]; omega

theorem sizeMembers_pos (kvs : List (List Char × Json)) (h : kvs ≠ []) :
    1 ≤ sizeMembers kvs := by
  cases kvs with
  | nil => exact absurd rfl h
  | cons kv kvs => obtain ⟨k, v⟩ := kv; simp [sizeMembers]; omega

theorem skipWs_cons_nws {c : Char} (h : isWsC c = false) (l : List Char) :
    skipWs (c :: l) = c :: l := by
  simp [skipWs, h]

theorem parseStringBody_escape (s r : List Char) :
    parseStringBody (escapeChars s ++ ('"' :: r)) = some (s, r) := by
  induction s with
  | nil =>
    rw [show escapeChars [] ++ ('"' :: r) = '"' :: r from rfl, parseStringBody.eq_def]
    simp
  | cons c cs ih =>
    by_cases h1 : c = '"'
    · subst h1
      rw [show escapeChars ('"' :: cs) ++ ('"' :: r)
            = '\\' :: ('"' :: (escapeChars cs ++ ('"' :: r))) from by
          simp [escapeChars], parseStringBody.eq_def]
      simp [ih]
    · by_cases h2 : c = '\\'
      · subst h2
        rw [show escapeChars ('\\' :: cs) ++ ('"' :: r)
              = '\\' :: ('\\' :: (escapeChars cs ++ ('"' :: r))) from by
            simp [escapeChars], parseStringBody.eq_def]
        simp [ih]
      · rw [show escapeChars (c :: cs) ++ ('"' :: r)
              = c :: (escapeChars cs ++ ('"' :: r)) from by
            simp [escapeChars, h1, h2], parseStringBody.eq_def]
        simp [h1, h2, ih]

/-- Accumulate one decimal digit character into a value. -/
def accD (a : Nat) (c : Char) : Nat := a * 10 + digitVal c

theorem digitVal_digitChar : ∀ d : Nat, d < 10 → digitVal (digitChar d) = d := by decide

theorem isDigitC_digitChar : ∀ d : Nat, d < 10 → isDigitC (digitChar d) = true := by decide

theorem digit_not_ws {c : Char} (h : isDigitC c = true) : isWsC c = false := by
  simp [isDigitC] at h
  simp [isWsC]
  omega

theorem digit_ne {c c' : Char} (h : isDigitC c = true) (h' : isDigitC c' = false) :
    c ≠ c' := by
  intro e
  rw [e, h'] at h
  cases h

theorem natDigitsAux_head :
    ∀ f n acc, n < f → ∃ c cs, natDigitsAux f n acc = c :: cs ∧ isDigitC c = true := by
  intro f
  induction f with
  | zero => intro n acc h; omega
  | succ f ih =>
    intro n acc h
    by_cases h10 : n < 10
    · exact ⟨digitChar n, acc, by simp [natDigitsAux, h10], isDigitC_digitChar n h10⟩
    · have hlt : n / 10 < f := by
        have h2 := Nat.div_lt_self (by omega : 0 < n) (by omega : 1 < 10)
        omega
      simpa [natDigitsAux, h10] using ih (n / 10) (digitChar (n % 10) :: acc) hlt

theorem natDigitsAux_all :
    ∀ f n acc, n < f → (∀ x ∈ acc, isDigitC x = true) →
      ∀ x ∈ natDigitsAux f n acc, isDigitC x = true := by
  intro f
  induction f with
  | zero => intro n acc h; omega
  | succ f ih =>
    intro n acc h hacc
    by_cases h10 : n < 10
    · intro x hx
      simp [natDigitsAux, h10] at hx
      rcases hx with hx | hx
      · subst hx; exact isDigitC_digitChar n h10
      · exact hacc x hx
    · have hlt : n / 10 < f := by
        have h2 := Nat.div_lt_self (by omega : 0 < n) (by omega : 1 < 10)
        omega
      have hacc2 : ∀ x ∈ digitChar (n % 10) :: acc, isDigitC x = true := by
        intro x hx
        rcases List.mem_cons.mp hx with hx | hx
        · subst hx; exact isDigitC_digitChar (n % 10) (Nat.mod_lt n (by omega))
        · exact hacc x hx
      intro x hx
      simp only [natDigitsAux, if_neg h10] at hx
      exact ih (n / 10) (digitChar (n % 10) :: acc) hlt hacc2 x hx

theorem natDigitsAux_foldl :
    ∀ f n a tail, n < f →
      ∃ k, List.foldl accD a (natDigitsAux f n tail)
        = List.foldl accD (a * 10 ^ k + n) tail := by
  intro f
  induction f with
  | zero => intro n a tail h; omega
  | succ f ih =>
    intro n a tail h
    by_cases h10 : n < 10
    · refine ⟨1, ?_⟩
      simp [natDigitsAux, h10, accD, digitVal_digitChar n h10]
    · have hlt : n / 10 < f := by
        have h2 := Nat.div_lt_self (by omega : 0 < n) (by omega : 1 < 10)
        omega
      obtain ⟨k, hk⟩ := ih (n / 10) a (digitChar (n % 10) :: tail) hlt
      refine ⟨k + 1, ?_⟩
      rw [show natDigitsAux (f + 1) n tail
            = natDigitsAux f (n / 10) (digitChar (n % 10) :: tail) from by
          simp [natDigitsAux, h10]]
      rw [hk]
      simp only [List.foldl_cons]
      congr 1
      rw [accD, digitVal_digitChar (n % 10) (Nat.mod_lt n (by omega))]
      have hdm : n / 10 * 10 + n % 10 = n := by omega
      calc (a * 10 ^ k + n / 10) * 10 + n % 10
          = a * (10 ^ k * 10) + (n / 10 * 10 + n % 10) := by ring
        _ = a * 10 ^ (k + 1) + n := by rw [hdm, pow_succ]

theorem natDigits_head (n : Nat) :
    ∃ c cs, natDigits n = c :: cs ∧ isDigitC c = true :=
  natDigitsAux_head (n + 1) n [] (Nat.lt_succ_self n)

theorem natDigits_all (n : Nat) : ∀ x ∈ natDigits n, isDigitC x = true :=
  natDigitsAux_all (n + 1) n [] (Nat.lt_succ_self n) (by simp)

theorem natDigits_foldl (n : Nat) : List.foldl accD 0 (natDigits n) = n := by
  obtain ⟨k, hk⟩ := natDigitsAux_foldl (n + 1) n 0 [] (Nat.lt_succ_self n)
  simpa using hk

theorem parseDigitsAux_append :
    ∀ (ds : List Char) (a : Nat) (r : List Char),
      (∀ c ∈ ds, isDigitC c = true) → headOk r = true →
      parseDigitsAux (ds ++ r) a = (List.foldl accD a ds, r) := by
  intro ds
  induction ds with
  | nil =>
    intro a r _ hr
    cases r with
    | nil => simp [parseDigitsAux]
    | cons c cs =>
      have hc : isDigitC c = false := by simpa [headOk] using hr
      simp [parseDigitsAux, hc]
  | cons d ds ih =>
    intro a r hall hr
    have hd : isDigitC d = true := hall d (List.mem_cons_self d ds)
    simp only [List.cons_append, parseDigitsAux, hd, if_pos, List.foldl_cons]
    rw [show accD a d = a * 10 + digitVal d from rfl]
    exact ih (a * 10 + digitVal d) r (fun c hc => hall c (List.mem_cons_of_mem d hc)) hr

theorem serJson_head (v : Json) :
    ∃ c cs, serJson v = c :: cs ∧ isWsC c = false ∧ c ≠ ']' := by
  cases v with
  | null => exact ⟨'n', ['u', 'l', 'l'], by simp [serJson, litNull], by decide, by decide⟩
  | bool b =>
    cases b with
    | true => exact ⟨'t', ['r', 'u', 'e'], by simp [serJson, litTrue], by decide, by decide⟩
    | false => exact ⟨'f', ['a', 'l', 's', 'e'], by simp [serJson, litFalse], by decide, by decide⟩
  | num n =>
    cases n with
    | ofNat m =>
      obtain ⟨c, cs, he, hd⟩ := natDigits_head m
      exact ⟨c, cs, by simp [serJson, serInt, he], digit_not_ws hd,
        digit_ne hd (by decide)⟩
    | negSucc m =>
      exact ⟨'-', natDigits (m + 1), by simp [serJson, serInt], by decide, by decide⟩
  | str s => exact ⟨'"', escapeChars s ++ ['"'], by simp [serJson], by decide, by decide⟩
  | arr xs => exact ⟨'[', serItemsJ xs ++ [']'], by simp [serJson], by decide, by decide⟩
  | obj kvs =>
    exact ⟨'{', serMembersJ kvs ++ ['}'], by simp [serJson], by decide, by decide⟩

/-! ## One-step reductions of the parser on shaped inputs -/

theorem headOk_nil : headOk [] = true := rfl

theorem headOk_cons (c : Char) (l : List Char) (h : isDigitC c = false) :
    headOk (c :: l) = true := by
  rw [headOk, h]
  rfl

theorem parseValue_null (fuel : Nat) (r : List Char) :
    parseValue (fuel + 1) ('n' :: ('u' :: ('l' :: ('l' :: r)))) = some (.null, r) := by
  rw [parseValue, skipWs_cons_nws (by decide)]
  simp

theorem parseValue_true (fuel : Nat) (r : List Char) :
    parseValue (fuel + 1) ('t' :: ('r' :: ('u' :: ('e' :: r)))) = some (.bool true, r) := by
  rw [parseValue, skipWs_cons_nws (by decide)]
  simp

theorem parseValue_false (fuel : Nat) (r : List Char) :
    parseValue (fuel + 1) ('f' :: ('a' :: ('l' :: ('s' :: ('e' :: r)))))
      = some (.bool false, r) := by
  rw [parseValue, skipWs_cons_nws (by decide)]
  simp

theorem parseValue_quote (fuel : Nat) (rest s r : List Char)
    (h : parseStringBody rest = some (s, r)) :
    parseValue (fuel + 1) ('"' :: rest) = some (.str s, r) := by
  rw [parseValue, skipWs_cons_nws (by decide)]
  simp [h]

theorem parseValue_digit (fuel : Nat) (c : Char) (rest : List Char)
    (hc : isDigitC c = true) :
    parseValue (fuel + 1) (c :: rest)
      = some (.num (Int.ofNat (parseDigitsAux rest (digitVal c)).1),
              (parseDigitsAux rest (digitVal c)).2) := by
  have h1 : ¬c = 'n' := digit_ne hc (by decide)
  have h2 : ¬c = 't' := digit_ne hc (by decide)
  have h3 : ¬c = 'f' := digit_ne hc (by decide)
  have h4 : ¬c = '"' := digit_ne hc (by decide)
  have h5 : ¬c = '[' := digit_ne hc (by decide)
  have h6 : ¬c = '{' := digit_ne hc (by decide)
  have h7 : ¬c = '-' := digit_ne hc (by decide)
  rw [parseValue, skipWs_cons_nws (digit_not_ws hc)]
  simp [h1, h2, h3, h4, h5, h6, h7, hc]

theorem parseValue_neg (fuel : Nat) (d : Char) (rest : List Char)
    (hd : isDigitC d = true) :
    parseValue (fuel + 1) ('-' :: (d :: rest))
      = some (.num (-((parseDigitsAux rest (digitVal d)).1 : Int)),
              (parseDigitsAux rest (digitVal d)).2) := by
  rw [parseValue, skipWs_cons_nws (by decide)]
  simp [hd]

theorem parseValue_arr_nil (fuel : Nat) (r : List Char) :
    parseValue (fuel + 1) ('[' :: (']' :: r)) = some (.arr [], r) := by
  rw [parseValue, skipWs_cons_nws (by decide)]
  simp [skipWs_cons_nws (by decide : isWsC ']' = false)]

theorem parseValue_arr_cons (fuel : Nat) (d : Char) (rest2 r' : List Char)
    (xs : List Json) (hnw : isWsC d = false) (hd : ¬d = ']')
    (hi : parseItems fuel (d :: rest2) = some (xs, r')) :
    parseValue (fuel + 1) ('[' :: (d :: rest2)) = some (.arr xs, r') := by
  rw [parseValue, skipWs_cons_nws (by decide)]
  simp [skipWs_cons_nws hnw, hd, hi]

theorem parseValue_obj_nil (fuel : Nat) (r : List Char) :
    parseValue (fuel + 1) ('{' :: ('}' :: r)) = some (.obj [], r) := by
  rw [parseValue, skipWs_cons_nws (by decide)]
  simp [skipWs_cons_nws (by decide : isWsC '}' = false)]

theorem parseValue_obj_cons (fuel : Nat) (d : Char) (rest2 r' : List Char)
    (kvs : List (List Char × Json)) (hnw : isWsC d = false) (hd : ¬d = '}')
    (hi : parseMembers fuel (d :: rest2) = some (kvs, r')) :
    parseValue (fuel + 1) ('{' :: (d :: rest2)) = some (.obj kvs, r') := by
  rw [parseValue, skipWs_cons_nws (by decide)]
  simp [skipWs_cons_nws hnw, hd, hi]

theorem parseItems_cons (fuel : Nat) (input rr r2 r3 : List Char) (v : Json)
    (xs : List Json)
    (hv : parseValue fuel input = some (v, rr))
    (hskip : skipWs rr = ',' :: r2)
    (hrec : parseItems fuel r2 = some (xs, r3)) :
    parseItems (fuel + 1) input = some (v :: xs, r3) := by
  rw [parseItems, hv]
  simp [hskip, hrec]

theorem parseItems_last (fuel : Nat) (input rr r2 : List Char) (v : Json)
    (hv : parseValue fuel input = some (v, rr))
    (hskip : skipWs rr = ']' :: r2) :
    parseItems (fuel + 1) input = some ([v], r2) := by
  rw [parseItems, hv]
  simp [hskip]

theorem parseMembers_cons (fuel : Nat) (r0 k r1 r2 r3 r4 r5 : List Char) (v : Json)
    (kvs : List (List Char × Json))
    (hk : parseStringBody r0 = some (k, r1))
    (hc : skipWs r1 = ':' :: r2)
    (hv : parseValue fuel r2 = some (v, r3))
    (he : skipWs r3 = ',' :: r4)
    (hrec : parseMembers fuel r4 = some (kvs, r5)) :
    parseMembers (fuel + 1) ('"' :: r0) = some ((k, v) :: kvs, r5) := by
  rw [parseMembers, skipWs_cons_nws (by decide)]
  simp [hk, hc, hv, he, hrec]

theorem parseMembers_last (fuel : Nat) (r0 k r1 r2 r3 r4 : List Char) (v : Json)
    (hk : parseStringBody r0 = some (k, r1))
    (hc : skipWs r1 = ':' :: r2)
    (hv : parseValue fuel r2 = some (v, r3))
    (he : skipWs r3 = '}' :: r4) :
    parseMembers (fuel + 1) ('"' :: r0) = some ([(k, v)], r4) := by
  rw [parseMembers, skipWs_cons_nws (by decide)]
  simp [hk, hc, hv, he]

/-! ## The parser reads a serialization back -/

theorem serItemsJ_decomp (x : Json) (xs : List Json) :
    ∃ t, serItemsJ (x :: xs) = serJson x ++ t := by
  cases xs with
  | nil => exact ⟨[], by simp [serItemsJ]⟩
  | cons y ys => exact ⟨',' :: serItemsJ (y :: ys), by simp [serItemsJ]⟩

theorem serMembersJ_head (k : List Char) (v : Json) (kvs : List (List Char × Json)) :
    ∃ t, serMembersJ ((k, v) :: kvs) = '"' :: t := by
  cases kvs with
  | nil => exact ⟨escapeChars k ++ ('"' :: (':' :: serJson v)), by simp [serMembersJ]⟩
  | cons m ms =>
    exact ⟨escapeChars k ++ ('"' :: (':' :: serJson v)) ++ (',' :: serMembersJ (m :: ms)),
      by simp [serMembersJ]⟩

theorem parse_ser_aux : ∀ fuel : Nat,
    (∀ v r, jsize v ≤ fuel → headOk r = true →
      parseValue fuel (serJson v ++ r) = some (v, r)) ∧
    (∀ xs r, xs ≠ [] → sizeItems xs ≤ fuel →
      parseItems fuel (serItemsJ xs ++ (']' :: r)) = some (xs, r)) ∧
    (∀ kvs r, kvs ≠ [] → sizeMembers kvs ≤ fuel →
      parseMembers fuel (serMembersJ kvs ++ ('}' :: r)) = some (kvs, r)) := by
  intro fuel
  induction fuel with
  | zero =>
    refine ⟨fun v r hsz _ => ?_, fun xs r hne hsz => ?_, fun kvs r hne hsz => ?_⟩
    · have := jsize_pos v; omega
    · have := sizeItems_pos xs hne; omega
    · have := sizeMembers_pos kvs hne; omega
  | succ fuel ih =>
    obtain ⟨ihV, ihI, ihM⟩ := ih
    refine ⟨?_, ?_, ?_⟩
    · intro v r hsz hok
      cases v with
      | null =>
        rw [show serJson Json.null ++ r = 'n' :: ('u' :: ('l' :: ('l' :: r))) from by
          simp [serJson, litNull]]
        exact parseValue_null fuel r
      | bool b =>
        cases b with
        | true =>
          rw [show serJson (Json.bool true) ++ r
                = 't' :: ('r' :: ('u' :: ('e' :: r))) from by simp [serJson, litTrue]]
          exact parseValue_true fuel r
        | false =>
          rw [show serJson (Json.bool false) ++ r
                = 'f' :: ('a' :: ('l' :: ('s' :: ('e' :: r)))) from by simp [serJson, litFalse]]
          exact parseValue_false fuel r
      | num n =>
        cases n with
        | ofNat m =>
          obtain ⟨c, ds, hds, hdC⟩ := natDigits_head m
          have hall : ∀ x ∈ ds, isDigitC x = true := by
            intro x hx
            exact natDigits_all m x (by rw [hds]; exact List.mem_cons_of_mem c hx)
          rw [show serJson (Json.num (Int.ofNat m)) ++ r = c :: (ds ++ r) from by
            simp [serJson, serInt, hds]]
          rw [parseValue_digit fuel c (ds ++ r) hdC]
          rw [parseDigitsAux_append ds (digitVal c) r hall hok]
          have hfold : List.foldl accD (digitVal c) ds = m := by
            have h0 := natDigits_foldl m
            rw [hds] at h0
            simpa [accD] using h0
          rw [hfold]
        | negSucc m =>
          obtain ⟨c, ds, hds, hdC⟩ := natDigits_head (m + 1)
          have hall : ∀ x ∈ ds, isDigitC x = true := by
            intro x hx
            exact natDigits_all (m + 1) x (by rw [hds]; exact List.mem_cons_of_mem c hx)
          rw [show serJson (Json.num (Int.negSucc m)) ++ r = '-' :: (c :: (ds ++ r)) from by
            simp [serJson, serInt, hds]]
          rw [parseValue_neg fuel c (ds ++ r) hdC]
          rw [parseDigitsAux_append ds (digitVal c) r hall hok]
          rw [show List.foldl accD (digitVal c) ds = m + 1 from by
            have h0 := natDigits_foldl (m + 1)
            rw [hds] at h0
            simpa [accD] using h0]
          norm_num [Int.negSucc_eq]
      | str s =>
        rw [show serJson (Json.str s) ++ r = '"' :: (escapeChars s ++ ('"' :: r)) from by
          simp [serJson]]
        exact parseValue_quote fuel _ s r (parseStringBody_escape s r)
      | arr xs =>
        cases xs with
        | nil =>
          rw [show serJson (Json.arr []) ++ r = '[' :: (']' :: r) from by
            simp [serJson, serItemsJ]]
          exact parseValue_arr_nil fuel r
        | cons x xs =>
          obtain ⟨c, cs, hx, hnw, hnb⟩ := serJson_head x
          obtain ⟨t, ht⟩ := serItemsJ_decomp x xs
          have hshape : serItemsJ (x :: xs) ++ (']' :: r)
              = c :: (cs ++ (t ++ (']' :: r))) := by
            rw [ht, hx]; simp
          have hsz2 : sizeItems (x :: xs) ≤ fuel := by
            simp only [jsize] at hsz; omega
          have hi := ihI (x :: xs) r (by simp) hsz2
          rw [hshape] at hi
          have houter : serJson (Json.arr (x :: xs)) ++ r
              = '[' :: (serItemsJ (x :: xs) ++ (']' :: r)) := by simp [serJson]
          rw [houter, hshape]
          exact parseValue_arr_cons fuel c (cs ++ (t ++ (']' :: r))) r (x :: xs) hnw hnb hi
      | obj kvs =>
        cases kvs with
        | nil =>
          rw [show serJson (Json.obj []) ++ r = '{' :: ('}' :: r) from by
            simp [serJson, serMembersJ]]
          exact parseValue_obj_nil fuel r
        | cons kv kvs =>
          obtain ⟨k, v⟩ := kv
          obtain ⟨t, ht⟩ := serMembersJ_head k v kvs
          have hshape : serMembersJ ((k, v) :: kvs) ++ ('}' :: r)
              = '"' :: (t ++ ('}' :: r)) := by
            rw [ht]; simp
          have hsz2 : sizeMembers ((k, v) :: kvs) ≤ fuel := by
            simp only [jsize] at hsz; omega
          have hi := ihM ((k, v) :: kvs) r (by simp) hsz2
          rw [hshape] at hi
          have houter : serJson (Json.obj ((k, v) :: kvs)) ++ r
              = '{' :: (serMembersJ ((k, v) :: kvs) ++ ('}' :: r)) := by simp [serJson]
          rw [houter, hshape]
          exact parseValue_obj_cons fuel '"' (t ++ ('}' :: r)) r ((k, v) :: kvs)
            (by decide) (by decide) hi
    · intro xs r hne hsz
      cases xs with
      | nil => exact absurd rfl hne
      | cons x xs =>
        have hjx : jsize x ≤ fuel := by
          simp only [sizeItems] at hsz; omega
        cases xs with
        | nil =>
          have hv := ihV x (']' :: r) hjx (headOk_cons ']' r (by decide))
          rw [show serItemsJ [x] ++ (']' :: r) = serJson x ++ (']' :: r) from by
            simp [serItemsJ]]
          exact parseItems_last fuel _ (']' :: r) r x hv (skipWs_cons_nws (by decide) r)
        | cons y ys =>
          have hsz3 : sizeItems (y :: ys) ≤ fuel := by
            simp only [sizeItems] at hsz ⊢
            have := jsize_pos x
            omega
          have hrec := ihI (y :: ys) r (by simp) hsz3
          have hv := ihV x (',' :: (serItemsJ (y :: ys) ++ (']' :: r))) hjx
            (headOk_cons ',' _ (by decide))
          rw [show serItemsJ (x :: (y :: ys)) ++ (']' :: r)
                = serJson x ++ (',' :: (serItemsJ (y :: ys) ++ (']' :: r))) from by
            simp [serItemsJ]]
          exact parseItems_cons fuel _ _ _ r x (y :: ys) hv
            (skipWs_cons_nws (by decide) _) hrec
    · intro kvs r hne hsz
      cases kvs with
      | nil => exact absurd rfl hne
      | cons kv kvs =>
        obtain ⟨k, v⟩ := kv
        have hjv : jsize v ≤ fuel := by
          simp only [sizeMembers] at hsz; omega
        cases kvs with
        | nil =>
          have hv := ihV v ('}' :: r) hjv (headOk_cons '}' r (by decide))
          rw [show serMembersJ [(k, v)] ++ ('}' :: r)
                = '"' :: (escapeChars k ++ ('"' :: (':' :: (serJson v ++ ('}' :: r))))) from by
            simp [serMembersJ]]
          exact parseMembers_last fuel _ k _ _ ('}' :: r) r v
            (parseStringBody_escape k (':' :: (serJson v ++ ('}' :: r))))
            (skipWs_cons_nws (by decide) _) hv (skipWs_cons_nws (by decide) _)
        | cons m ms =>
          obtain ⟨k2, v2⟩ := m
          have hsz3 : sizeMembers ((k2, v2) :: ms) ≤ fuel := by
            simp only [sizeMembers] at hsz ⊢
            have := jsize_pos v
            omega
          have hrec := ihM ((k2, v2) :: ms) r (by simp) hsz3
          have hv := ihV v (',' :: (serMembersJ ((k2, v2) :: ms) ++ ('}' :: r))) hjv
            (headOk_cons ',' _ (by decide))
          rw [show serMembersJ ((k, v) :: ((k2, v2) :: ms)) ++ ('}' :: r)
                = '"' :: (escapeChars k ++ ('"' :: (':' :: (serJson v ++
                    (',' :: (serMembersJ ((k2, v2) :: ms) ++ ('}' :: r))))))) from by
            simp [serMembersJ]]
          exact parseMembers_cons fuel _ k _ _ _ _ r v ((k2, v2) :: ms)
            (parseStringBody_escape k _)
            (skipWs_cons_nws (by decide) _) hv (skipWs_cons_nws (by decide) _) hrec

theorem jsize_le_of_mem_items :
    ∀ (xs : List Json) (x : Json), x ∈ xs → jsize x ≤ sizeItems xs := by
  intro xs
  induction xs with
  | nil => intro x hx; cases hx
  | cons y ys ih =>
    intro x hx
    rcases List.mem_cons.mp hx with h | h
    · subst h; simp only [sizeItems]; omega
    · have := ih x h; simp only [sizeItems]; omega

theorem jsize_le_of_mem_members :
    ∀ (kvs : List (List Char × Json)) (kv : List Char × Json),
      kv ∈ kvs → jsize kv.2 ≤ sizeMembers kvs := by
  intro kvs
  induction kvs with
  | nil => intro kv hkv; cases hkv
  | cons m ms ih =>
    intro kv hkv
    obtain ⟨k2, v2⟩ := m
    rcases List.mem_cons.mp hkv with h | h
    · subst h; simp only [sizeMembers]; omega
    · have := ih kv h; simp only [sizeMembers]; omega

theorem sizeItems_le_len (xs : List Json)
    (h : ∀ x ∈ xs, jsize x ≤ (serJson x).length) :
    sizeItems xs ≤ (serItemsJ xs).length + 1 := by
  induction xs with
  | nil => simp [sizeItems]
  | cons x xs ih =>
    cases xs with
    | nil =>
      have hx := h x (List.mem_cons_self x [])
      simp only [sizeItems, serItemsJ]
      omega
    | cons y ys =>
      have hx := h x (List.mem_cons_self x (y :: ys))
      have ih2 := ih (fun z hz => h z (List.mem_cons_of_mem x hz))
      simp only [sizeItems, serItemsJ, List.length_append, List.length_cons] at ih2 ⊢
      omega

theorem sizeMembers_le_len (kvs : List (List Char × Json))
    (h : ∀ kv ∈ kvs, jsize kv.2 ≤ (serJson kv.2).length) :
    sizeMembers kvs ≤ (serMembersJ kvs).length + 1 := by
  induction kvs with
  | nil => simp [sizeMembers]
  | cons m ms ih =>
    obtain ⟨k, v⟩ := m
    cases ms with
    | nil =>
      have hv := h (k, v) (List.mem_cons_self (k, v) [])
      simp only [sizeMembers, serMembersJ, List.length_append, List.length_cons] at hv ⊢
      omega
    | cons m2 ms2 =>
      have hv := h (k, v) (List.mem_cons_self (k, v) (m2 :: ms2))
      have ih2 := ih (fun z hz => h z (List.mem_cons_of_mem (k, v) hz))
      simp only [sizeMembers, serMembersJ, List.length_append, List.length_cons] at hv ih2 ⊢
      omega

theorem jsize_le_length : ∀ v : Json, jsize v ≤ (serJson v).length := by
  suffices H : ∀ n v, jsize v = n → jsize v ≤ (serJson v).length by
    exact fun v => H (jsize v) v rfl
  intro n
  induction n using Nat.strong_induction_on with
  | _ n ih =>
    intro v hn
    cases v with
    | null => simp [jsize, serJson, litNull]
    | bool b => cases b <;> simp [jsize, serJson, litTrue, litFalse]
    | num m =>
      cases m with
      | ofNat m =>
        obtain ⟨c, cs, hds, _⟩ := natDigits_head m
        simp [jsize, serJson, serInt, hds]
      | negSucc m => simp [jsize, serJson, serInt]
    | str s => simp [jsize, serJson]
    | arr xs =>
      subst hn
      have hmem : ∀ x ∈ xs, jsize x ≤ (serJson x).length := by
        intro x hx
        refine ih (jsize x) ?_ x rfl
        have h1 := jsize_le_of_mem_items xs x hx
        simp only [jsize]
        omega
      have h2 := sizeItems_le_len xs hmem
      simp only [jsize, serJson, List.length_append, List.length_cons]
      simp at h2 ⊢
      omega
    | obj kvs =>
      subst hn
      have hmem : ∀ kv ∈ kvs, jsize kv.2 ≤ (serJson kv.2).length := by
        intro kv hkv
        refine ih (jsize kv.2) ?_ kv.2 rfl
        have h1 := jsize_le_of_mem_members kvs kv hkv
        simp only [jsize]
        omega
      have h2 := sizeMembers_le_len kvs hmem
      simp only [jsize, serJson, List.length_append, List.length_cons]
      simp at h2 ⊢
      omega

/-- Round trip: serializing any JSON value and parsing the result gives the
value back. -/
theorem jsonParse_jsonSerialize (v : Json) : jsonParse (jsonSerialize v) = some v := by
  have hlen : jsize v ≤ (serJson v).length := jsize_le_length v
  have h := (parse_ser_aux ((serJson v).length + 1)).1 v [] (by omega) headOk_nil
  rw [List.append_nil] at h
  show jsonParse (String.mk (serJson v)) = some v
  have hlen2 : (String.mk (serJson v)).length = (serJson v).length := rfl
  have hdata : (String.mk (serJson v)).data = serJson v := rfl
  simp [jsonParse, hlen2, hdata, h, skipWs]

/-! ## Reductions of dispatch per route and file state -/

theorem dispatch_points_ok (env : Env) (req : HttpRequest) (c : String) (v : Json)
    (h : env.fs pointsPath = some c) (hp : jsonParse c = some v) :
    dispatch env .points req
      = ([.fsOpen pointsPath, .fsRead pointsPath c, .fsClose pointsPath],
         flaskFinalize (flaskMakeResponse v)) := by
  simp [dispatch, pointsHandler, h, hp]

theorem dispatch_points_badjson (env : Env) (req : HttpRequest) (c : String)
    (h : env.fs pointsPath = some c) (hp : jsonParse c = none) :
    (pointsHandler env req).2 = .error .jsonDecodeError
    ∧ dispatch env .points req
      = ([.fsOpen pointsPath, .fsRead pointsPath c, .fsClose pointsPath],
         internalServerError) := by
  constructor
  · simp [pointsHandler, h, hp]
  · simp [dispatch, pointsHandler, h, hp]

theorem dispatch_points_nofile (env : Env) (req : HttpRequest)
    (h : env.fs pointsPath = none) :
    (pointsHandler env req).2 = .error (.fileNotFound pointsPath)
    ∧ dispatch env .points req = ([], internalServerError) := by
  constructor
  · simp [pointsHandler, h]
  · simp [dispatch, pointsHandler, h]

theorem dispatch_polygons_ok (env : Env) (req : HttpRequest) (c : String) (v : Json)
    (h : env.fs polygonsPath = some c) (hp : jsonParse c = some v) :
    dispatch env .polygons req
      = ([.fsOpen polygonsPath, .fsRead polygonsPath c, .fsClose polygonsPath],
         flaskFinalize (flaskMakeResponse v)) := by
  simp [dispatch, polygonsHandler, h, hp]

theorem dispatch_polygons_badjson (env : Env) (req : HttpRequest) (c : String)
    (h : env.fs polygonsPath = some c) (hp : jsonParse c = none) :
    (polygonsHandler env req).2 = .error .jsonDecodeError
    ∧ dispatch env .polygons req
      = ([.fsOpen polygonsPath, .fsRead polygonsPath c, .fsClose polygonsPath],
         internalServerError) := by
  constructor
  · simp [polygonsHandler, h, hp]
  · simp [dispatch, polygonsHandler, h, hp]

theorem dispatch_polygons_nofile (env : Env) (req : HttpRequest)
    (h : env.fs polygonsPath = none) :
    (polygonsHandler env req).2 = .error (.fileNotFound polygonsPath)
    ∧ dispatch env .polygons req = ([], internalServerError) := by
  constructor
  · simp [polygonsHandler, h]
  · simp [dispatch, polygonsHandler, h]

theorem dispatch_root_ok (env : Env) (req : HttpRequest) (html : String)
    (h : env.templates indexTemplate = some html) :
    dispatch env .root req
      = ([.render indexTemplate],
         { status := 200, contentType := htmlMime, body := html }) := by
  simp [dispatch, homeHandler, h]

theorem dispatch_root_notmpl (env : Env) (req : HttpRequest)
    (h : env.templates indexTemplate = none) :
    dispatch env .root req = ([], internalServerError) := by
  simp [dispatch, homeHandler, h]

/-! ## Sample data for concrete instantiations -/

/-- A file whose text is an empty JSON object. -/
def objText : String := String.mk ['{', '}']

/-- A file whose text is a one-element JSON array. -/
def arrText : String := String.mk ['[', '1', ']']

/-- A file whose text is the JSON document true. -/
def boolText : String := String.mk ['t', 'r', 'u', 'e']

/-- A file whose text is the JSON document 7. -/
def numText : String := String.mk ['7']

/-- A file whose text is a top-level JSON string. -/
def quotedText : String := String.mk ['"', 'a', '"']

/-- A file whose text is not valid JSON. -/
def badText : String := String.mk ['x']

/-- Some rendered markup. -/
def pageHtml : String := String.mk ['h', 'i']

/-- A plain GET request with no parameters. -/
def sampleReq : HttpRequest := ⟨[], []⟩

/-! ## Claims -/

/-- C1: for every request, GET /points opens the fixed file path
static/data/features.json (the trace holds exactly the open, read and close
of that path and touches nothing else), parses its contents as JSON, and
returns the decoded structure to the framework; for a decoded object or
array the response is that structure serialized as JSON with the
application/json content type. -/
theorem points_route_contract (env : Env) (req : HttpRequest) (c : String) (v : Json)
    (hfile : env.fs pointsPath = some c) (hparse : jsonParse c = some v) :
    traceOf env .points req
        = [.fsOpen pointsPath, .fsRead pointsPath c, .fsClose pointsPath]
    ∧ (pointsHandler env req).2 = .ok v
    ∧ (∀ kvs, v = .obj kvs →
        respOf env .points req
          = { status := 200, contentType := jsonMime, body := jsonSerialize v })
    ∧ (∀ xs, v = .arr xs →
        respOf env .points req
          = { status := 200, contentType := jsonMime, body := jsonSerialize v }) := by
  have hd := dispatch_points_ok env req c v hfile hparse
  refine ⟨by simp [traceOf, hd], by simp [pointsHandler, hfile, hparse], ?_, ?_⟩
  · intro kvs hv
    subst hv
    simp [respOf, hd, flaskFinalize, flaskMakeResponse]
  · intro xs hv
    subst hv
    simp [respOf, hd, flaskFinalize, flaskMakeResponse]

/-- Witness for C1 at a concrete object file. -/
theorem points_route_contract_witness :
    (Env.mk (fun _ => some objText) (fun _ => none)).fs pointsPath = some objText
    ∧ jsonParse objText = some (Json.obj [])
    ∧ (traceOf (Env.mk (fun _ => some objText) (fun _ => none)) .points sampleReq
          = [.fsOpen pointsPath, .fsRead pointsPath objText, .fsClose pointsPath]
      ∧ (pointsHandler (Env.mk (fun _ => some objText) (fun _ => none)) sampleReq).2
          = .ok (Json.obj [])
      ∧ (∀ kvs, Json.obj [] = .obj kvs →
          respOf (Env.mk (fun _ => some objText) (fun _ => none)) .points sampleReq
            = { status := 200, contentType := jsonMime,
                body := jsonSerialize (Json.obj []) })
      ∧ (∀ xs, Json.obj [] = .arr xs →
          respOf (Env.mk (fun _ => some objText) (fun _ => none)) .points sampleReq
            = { status := 200, contentType := jsonMime,
                body := jsonSerialize (Json.obj []) })) :=
  ⟨rfl, rfl, points_route_contract _ sampleReq objText (Json.obj []) rfl rfl⟩

/-- C2: GET /polygons behaves identically to GET /points against the second
fixed file path static/data/features_poly.json: whenever the polygons file
holds the same contents as the points file of another run, the responses
agree, and its trace is the open, read and close of its own fixed path. -/
theorem polygons_route_identical (env1 env2 : Env) (req1 req2 : HttpRequest)
    (h : env1.fs polygonsPath = env2.fs pointsPath) :
    respOf env1 .polygons req1 = respOf env2 .points req2
    ∧ (∀ c, env1.fs polygonsPath = some c →
        traceOf env1 .polygons req1
          = [.fsOpen polygonsPath, .fsRead polygonsPath c, .fsClose polygonsPath]) := by
  constructor
  · cases hc : env1.fs polygonsPath with
    | none =>
      have h2 : env2.fs pointsPath = none := by rw [← h, hc]
      simp [respOf, (dispatch_polygons_nofile env1 req1 hc).2,
        (dispatch_points_nofile env2 req2 h2).2]
    | some c =>
      have h2 : env2.fs pointsPath = some c := by rw [← h, hc]
      cases hp : jsonParse c with
      | none =>
        simp [respOf, (dispatch_polygons_badjson env1 req1 c hc hp).2,
          (dispatch_points_badjson env2 req2 c h2 hp).2]
      | some v =>
        simp [respOf, dispatch_polygons_ok env1 req1 c v hc hp,
          dispatch_points_ok env2 req2 c v h2 hp]
  · intro c hc
    cases hp : jsonParse c with
    | none => simp [traceOf, (dispatch_polygons_badjson env1 req1 c hc hp).2]
    | some v => simp [traceOf, dispatch_polygons_ok env1 req1 c v hc hp]

/-- Witness for C2 with both files holding the same object text. -/
theorem polygons_route_identical_witness :
    (Env.mk (fun _ => some objText) (fun _ => none)).fs polygonsPath
        = (Env.mk (fun _ => some objText) (fun _ => none)).fs pointsPath
    ∧ (respOf (Env.mk (fun _ => some objText) (fun _ => none)) .polygons sampleReq
          = respOf (Env.mk (fun _ => some objText) (fun _ => none)) .points sampleReq
      ∧ (∀ c, (Env.mk (fun _ => some objText) (fun _ => none)).fs polygonsPath = some c →
          traceOf (Env.mk (fun _ => some objText) (fun _ => none)) .polygons sampleReq
            = [.fsOpen polygonsPath, .fsRead polygonsPath c, .fsClose polygonsPath])) :=
  ⟨rfl, polygons_route_identical _ _ sampleReq sampleReq rfl⟩

/-- C3: a missing or unreadable data file, and likewise invalid JSON text,
makes the handler raise an uncaught Python error; the framework answers with
its default error response, HTTP 500, with the default body and no custom
message, and the handler result is the propagated error itself (no retry, no
recovery). -/
theorem data_routes_default_error (env : Env) (req : HttpRequest) :
    (env.fs pointsPath = none →
      (pointsHandler env req).2 = .error (.fileNotFound pointsPath)
      ∧ respOf env .points req = internalServerError)
    ∧ (∀ c, env.fs pointsPath = some c → jsonParse c = none →
      (pointsHandler env req).2 = .error .jsonDecodeError
      ∧ respOf env .points req = internalServerError)
    ∧ (env.fs polygonsPath = none →
      (polygonsHandler env req).2 = .error (.fileNotFound polygonsPath)
      ∧ respOf env .polygons req = internalServerError)
    ∧ (∀ c, env.fs polygonsPath = some c → jsonParse c = none →
      (polygonsHandler env req).2 = .error .jsonDecodeError
      ∧ respOf env .polygons req = internalServerError)
    ∧ internalServerError.status = 500
    ∧ internalServerError.contentType = htmlMime
    ∧ internalServerError.body = defaultErrorBody := by
  refine ⟨fun h => ?_, fun c h hp => ?_, fun h => ?_, fun c h hp => ?_, rfl, rfl, rfl⟩
  · obtain ⟨h1, h2⟩ := dispatch_points_nofile env req h
    exact ⟨h1, by simp [respOf, h2]⟩
  · obtain ⟨h1, h2⟩ := dispatch_points_badjson env req c h hp
    exact ⟨h1, by simp [respOf, h2]⟩
  · obtain ⟨h1, h2⟩ := dispatch_polygons_nofile env req h
    exact ⟨h1, by simp [respOf, h2]⟩
  · obtain ⟨h1, h2⟩ := dispatch_polygons_badjson env req c h hp
    exact ⟨h1, by simp [respOf, h2]⟩

/-- Witness for C3: a file with invalid JSON text produces the default 500. -/
theorem data_routes_default_error_witness :
    jsonParse badText = none
    ∧ (Env.mk (fun _ => some badText) (fun _ => none)).fs pointsPath = some badText
    ∧ (pointsHandler (Env.mk (fun _ => some badText) (fun _ => none)) sampleReq).2
        = .error .jsonDecodeError
    ∧ respOf (Env.mk (fun _ => some badText) (fun _ => none)) .points sampleReq
        = internalServerError :=
  ⟨rfl, rfl,
   ((data_routes_default_error _ sampleReq).2.1 badText rfl rfl).1,
   ((data_routes_default_error _ sampleReq).2.1 badText rfl rfl).2⟩

/-- Whether a JSON value is a collection (object or array), the shapes the
framework serializes as a JSON response. -/
def Json.isCollection : Json → Bool
  | .obj _ => true
  | .arr _ => true
  | _ => false

/-- C4 counterexample: the points file holding the valid JSON document "a"
(a top-level string) gets a 200 response whose body is the bare text a,
which is not valid JSON, so the body is not equivalent to the file. -/
theorem points_roundtrip_fails_on_string_file :
    jsonParse quotedText = some (Json.str ['a'])
    ∧ (respOf (Env.mk (fun _ => some quotedText) (fun _ => none)) .points
        sampleReq).status = 200
    ∧ jsonParse (respOf (Env.mk (fun _ => some quotedText) (fun _ => none)) .points
        sampleReq).body = none :=
  ⟨rfl, rfl, rfl⟩

/-- C4 amended: for every data file whose contents parse as a JSON object or
array, the endpoint answers 200 with the application/json content type and a
body that parses as valid JSON denoting the same JSON value as the on-disk
file (byte equivalence up to whitespace and formatting of the same value);
top-level strings are returned as a bare 200 text body and other top-level
values produce a server error, so they are excluded. -/
theorem points_polygons_roundtrip_collections (env : Env) (req : HttpRequest)
    (c : String) (v : Json)
    (hparse : jsonParse c = some v) (hcoll : v.isCollection = true) :
    (env.fs pointsPath = some c →
      (respOf env .points req).status = 200
      ∧ (respOf env .points req).contentType = jsonMime
      ∧ jsonParse (respOf env .points req).body = some v
      ∧ jsonParse (respOf env .points req).body = jsonParse c)
    ∧ (env.fs polygonsPath = some c →
      (respOf env .polygons req).status = 200
      ∧ (respOf env .polygons req).contentType = jsonMime
      ∧ jsonParse (respOf env .polygons req).body = some v
      ∧ jsonParse (respOf env .polygons req).body = jsonParse c) := by
  have hresp : flaskFinalize (flaskMakeResponse v)
      = { status := 200, contentType := jsonMime, body := jsonSerialize v } := by
    cases v with
    | obj kvs => simp [flaskMakeResponse, flaskFinalize]
    | arr xs => simp [flaskMakeResponse, flaskFinalize]
    | null => simp [Json.isCollection] at hcoll
    | bool b => simp [Json.isCollection] at hcoll
    | num n => simp [Json.isCollection] at hcoll
    | str s => simp [Json.isCollection] at hcoll
  constructor
  · intro hfile
    have hr : respOf env .points req
        = { status := 200, contentType := jsonMime, body := jsonSerialize v } := by
      simp [respOf, dispatch_points_ok env req c v hfile hparse, hresp]
    rw [hr]
    exact ⟨rfl, rfl, jsonParse_jsonSerialize v,
      by rw [jsonParse_jsonSerialize v, hparse]⟩
  · intro hfile
    have hr : respOf env .polygons req
        = { status := 200, contentType := jsonMime, body := jsonSerialize v } := by
      simp [respOf, dispatch_polygons_ok env req c v hfile hparse, hresp]
    rw [hr]
    exact ⟨rfl, rfl, jsonParse_jsonSerialize v,
      by rw [jsonParse_jsonSerialize v, hparse]⟩

/-- Witness for the amended C4 at a concrete object file. -/
theorem points_polygons_roundtrip_collections_witness :
    jsonParse objText = some (Json.obj [])
    ∧ (Json.obj []).isCollection = true
    ∧ (Env.mk (fun _ => some objText) (fun _ => none)).fs pointsPath = some objText
    ∧ ((respOf (Env.mk (fun _ => some objText) (fun _ => none)) .points
          sampleReq).status = 200
      ∧ (respOf (Env.mk (fun _ => some objText) (fun _ => none)) .points
          sampleReq).contentType = jsonMime
      ∧ jsonParse (respOf (Env.mk (fun _ => some objText) (fun _ => none)) .points
          sampleReq).body = some (Json.obj [])
      ∧ jsonParse (respOf (Env.mk (fun _ => some objText) (fun _ => none)) .points
          sampleReq).body = jsonParse objText) :=
  ⟨rfl, rfl, rfl,
   (points_polygons_roundtrip_collections _ sampleReq objText (Json.obj []) rfl rfl).1 rfl⟩

/-- C5: GET / renders the static index.html template with no arguments; the
handler consumes no inputs and no query parameters, so the dispatch result
is independent of the request, and on success the response body is the
rendered markup unchanged. -/
theorem home_route_static (env : Env) (req1 req2 : HttpRequest) :
    dispatch env .root req1 = dispatch env .root req2
    ∧ (∀ html, env.templates indexTemplate = some html →
        traceOf env .root req1 = [.render indexTemplate]
        ∧ respOf env .root req1
            = { status := 200, contentType := htmlMime, body := html }) := by
  constructor
  · rfl
  · intro html h
    exact ⟨by simp [traceOf, dispatch_root_ok env req1 html h],
           by simp [respOf, dispatch_root_ok env req1 html h]⟩

/-- Witness for C5 with a concrete template folder and two distinct requests. -/
theorem home_route_static_witness :
    (Env.mk (fun _ => none) (fun _ => some pageHtml)).templates indexTemplate
        = some pageHtml
    ∧ dispatch (Env.mk (fun _ => none) (fun _ => some pageHtml)) .root sampleReq
        = dispatch (Env.mk (fun _ => none) (fun _ => some pageHtml)) .root
            (HttpRequest.mk [(pointsPath, pointsPath)] [])
    ∧ traceOf (Env.mk (fun _ => none) (fun _ => some pageHtml)) .root sampleReq
        = [.render indexTemplate]
    ∧ respOf (Env.mk (fun _ => none) (fun _ => some pageHtml)) .root sampleReq
        = { status := 200, contentType := htmlMime, body := pageHtml } :=
  ⟨rfl,
   (home_route_static _ sampleReq (HttpRequest.mk [(pointsPath, pointsPath)] [])).1,
   ((home_route_static _ sampleReq sampleReq).2 pageHtml rfl).1,
   ((home_route_static _ sampleReq sampleReq).2 pageHtml rfl).2⟩

/-- C6: no handler mutates the file system or any state outside the
response: every effect trace is free of writes, and interpreting the trace
over the file system leaves it unchanged, on every route. -/
theorem handlers_no_writes (env : Env) (route : Route) (req : HttpRequest) :
    (traceOf env route req).all (fun e => !e.isWrite) = true
    ∧ applyEffects env.fs (traceOf env route req) = env.fs := by
  cases route with
  | root =>
    cases h : env.templates indexTemplate with
    | none => simp [traceOf, dispatch_root_notmpl env req h, applyEffects]
    | some html =>
      simp [traceOf, dispatch_root_ok env req html h, applyEffects, applyEffect,
        Effect.isWrite]
  | points =>
    cases h : env.fs pointsPath with
    | none => simp [traceOf, (dispatch_points_nofile env req h).2, applyEffects]
    | some c =>
      cases hp : jsonParse c with
      | none =>
        simp [traceOf, (dispatch_points_badjson env req c h hp).2, applyEffects,
          applyEffect, Effect.isWrite]
      | some v =>
        simp [traceOf, dispatch_points_ok env req c v h hp, applyEffects,
          applyEffect, Effect.isWrite]
  | polygons =>
    cases h : env.fs polygonsPath with
    | none => simp [traceOf, (dispatch_polygons_nofile env req h).2, applyEffects]
    | some c =>
      cases hp : jsonParse c with
      | none =>
        simp [traceOf, (dispatch_polygons_badjson env req c h hp).2, applyEffects,
          applyEffect, Effect.isWrite]
      | some v =>
        simp [traceOf, dispatch_polygons_ok env req c v h hp, applyEffects,
          applyEffect, Effect.isWrite]

/-- C7: each request performs a fresh synchronous read: the trace of a data
route holds the read of the file contents as of that very request, and in a
server run over any request sequence the response at every position is
exactly the dispatch of that position's file system snapshot, with no state
carried between requests. -/
theorem responses_fresh_from_disk (pre post : List (Env × Route × HttpRequest))
    (env : Env) (route : Route) (req : HttpRequest) :
    (serverRun () (pre ++ ((env, route, req) :: post))).get? pre.length
      = some (respOf env route req)
    ∧ (∀ c, env.fs pointsPath = some c →
        Effect.fsRead pointsPath c ∈ traceOf env .points req)
    ∧ (∀ c, env.fs polygonsPath = some c →
        Effect.fsRead polygonsPath c ∈ traceOf env .polygons req) := by
  refine ⟨?_, ?_, ?_⟩
  · induction pre with
    | nil => simp [serverRun, serverStep]
    | cons s pre ih =>
      obtain ⟨env2, route2, req2⟩ := s
      simpa [serverRun, serverStep] using ih
  · intro c hc
    cases hp : jsonParse c with
    | none => simp [traceOf, (dispatch_points_badjson env req c hc hp).2]
    | some v => simp [traceOf, dispatch_points_ok env req c v hc hp]
  · intro c hc
    cases hp : jsonParse c with
    | none => simp [traceOf, (dispatch_polygons_badjson env req c hc hp).2]
    | some v => simp [traceOf, dispatch_polygons_ok env req c v hc hp]

/-- Witness for C7 with a one-request run against a concrete file system. -/
theorem responses_fresh_from_disk_witness :
    (serverRun () [(Env.mk (fun _ => some objText) (fun _ => none), Route.points,
        sampleReq)]).get? 0
      = some (respOf (Env.mk (fun _ => some objText) (fun _ => none)) .points sampleReq)
    ∧ (Env.mk (fun _ => some objText) (fun _ => none)).fs pointsPath = some objText
    ∧ Effect.fsRead pointsPath objText
        ∈ traceOf (Env.mk (fun _ => some objText) (fun _ => none)) .points sampleReq :=
  ⟨(responses_fresh_from_disk [] [] _ Route.points sampleReq).1,
   rfl,
   (responses_fresh_from_disk [] [] _ Route.points sampleReq).2.1 objText rfl⟩

/-- C8: the data routes do not interfere: the whole dispatch outcome of
GET /points is a function of the points file contents alone, independent of
the polygons file, the templates and the request, and symmetrically for
GET /polygons, so any interleaving of such requests gives each endpoint the
same result. -/
theorem points_polygons_noninterference (env1 env2 : Env) (req1 req2 : HttpRequest) :
    (env1.fs pointsPath = env2.fs pointsPath →
      dispatch env1 .points req1 = dispatch env2 .points req2)
    ∧ (env1.fs polygonsPath = env2.fs polygonsPath →
      dispatch env1 .polygons req1 = dispatch env2 .polygons req2) := by
  constructor
  · intro h
    simp only [dispatch, pointsHandler, h]
  · intro h
    simp only [dispatch, polygonsHandler, h]

/-- Witness for C8: same points file, different templates and requests. -/
theorem points_polygons_noninterference_witness :
    (Env.mk (fun _ => some objText) (fun _ => none)).fs pointsPath
        = (Env.mk (fun _ => some objText) (fun _ => some pageHtml)).fs pointsPath
    ∧ dispatch (Env.mk (fun _ => some objText) (fun _ => none)) .points sampleReq
        = dispatch (Env.mk (fun _ => some objText) (fun _ => some pageHtml)) .points
            (HttpRequest.mk [] [(pointsPath, pointsPath)]) :=
  ⟨rfl, (points_polygons_noninterference _ _ sampleReq _).1 rfl⟩

theorem count_open_close_balanced (q c p : String) :
    ([Effect.fsOpen q, Effect.fsRead q c, Effect.fsClose q].count (Effect.fsOpen p))
      = [Effect.fsOpen q, Effect.fsRead q c,
          Effect.fsClose q].count (Effect.fsClose p) := by
  by_cases h : q = p
  · subst h
    simp [List.count_cons]
  · simp [List.count_cons, h]

/-- C9: on every exit path of the data handlers the acquired file handle is
released: each trace has as many closes as opens of every path, and on the
path where JSON parsing fails the close of the fixed path is still in the
trace. -/
theorem file_handles_closed (env : Env) (req : HttpRequest) (p : String) :
    (traceOf env .points req).count (.fsOpen p)
        = (traceOf env .points req).count (.fsClose p)
    ∧ (traceOf env .polygons req).count (.fsOpen p)
        = (traceOf env .polygons req).count (.fsClose p)
    ∧ (∀ c, env.fs pointsPath = some c → jsonParse c = none →
        Effect.fsClose pointsPath ∈ traceOf env .points req) := by
  refine ⟨?_, ?_, ?_⟩
  · cases h : env.fs pointsPath with
    | none => simp [traceOf, (dispatch_points_nofile env req h).2]
    | some c =>
      cases hp : jsonParse c with
      | none =>
        rw [show traceOf env .points req
              = [.fsOpen pointsPath, .fsRead pointsPath c, .fsClose pointsPath] from by
            simp [traceOf, (dispatch_points_badjson env req c h hp).2]]
        exact count_open_close_balanced pointsPath c p
      | some v =>
        rw [show traceOf env .points req
              = [.fsOpen pointsPath, .fsRead pointsPath c, .fsClose pointsPath] from by
            simp [traceOf, dispatch_points_ok env req c v h hp]]
        exact count_open_close_balanced pointsPath c p
  · cases h : env.fs polygonsPath with
    | none => simp [traceOf, (dispatch_polygons_nofile env req h).2]
    | some c =>
      cases hp : jsonParse c with
      | none =>
        rw [show traceOf env .polygons req
              = [.fsOpen polygonsPath, .fsRead polygonsPath c, .fsClose polygonsPath] from by
            simp [traceOf, (dispatch_polygons_badjson env req c h hp).2]]
        exact count_open_close_balanced polygonsPath c p
      | some v =>
        rw [show traceOf env .polygons req
              = [.fsOpen polygonsPath, .fsRead polygonsPath c, .fsClose polygonsPath] from by
            simp [traceOf, dispatch_polygons_ok env req c v h hp]]
        exact count_open_close_balanced polygonsPath c p
  · intro c h hp
    simp [traceOf, (dispatch_points_badjson env req c h hp).2]

/-- Witness for C9 at a file with invalid JSON, so the failing parse path is
exercised. -/
theorem file_handles_closed_witness :
    (Env.mk (fun _ => some badText) (fun _ => none)).fs pointsPath = some badText
    ∧ jsonParse badText = none
    ∧ (traceOf (Env.mk (fun _ => some badText) (fun _ => none)) .points
          sampleReq).count (.fsOpen pointsPath)
        = (traceOf (Env.mk (fun _ => some badText) (fun _ => none)) .points
            sampleReq).count (.fsClose pointsPath)
    ∧ Effect.fsClose pointsPath
        ∈ traceOf (Env.mk (fun _ => some badText) (fun _ => none)) .points sampleReq :=
  ⟨rfl, rfl,
   (file_handles_closed _ sampleReq pointsPath).1,
   (file_handles_closed _ sampleReq pointsPath).2.2 badText rfl rfl⟩

/-- C10: a valid JSON data file whose top-level value is not an object or
array is not served with JSON content semantics: a top-level string becomes
a bare 200 body with the default HTML content type (not the JSON one), and a
top-level number, boolean or null makes the framework conversion of the raw
json.load result raise TypeError, producing the default 500 response. -/
theorem non_collection_toplevel (env : Env) (req : HttpRequest) (c : String)
    (v : Json) :
    (env.fs pointsPath = some c → jsonParse c = some v →
      (∀ s, v = .str s →
        respOf env .points req
          = { status := 200, contentType := htmlMime, body := String.mk s }
        ∧ htmlMime ≠ jsonMime)
      ∧ ((v = .null ∨ (∃ b, v = .bool b) ∨ (∃ n, v = .num n)) →
        flaskMakeResponse v = .error .typeError
        ∧ respOf env .points req = internalServerError
        ∧ (respOf env .points req).status = 500))
    ∧ (env.fs polygonsPath = some c → jsonParse c = some v →
      (∀ s, v = .str s →
        respOf env .polygons req
          = { status := 200, contentType := htmlMime, body := String.mk s }
        ∧ htmlMime ≠ jsonMime)
      ∧ ((v = .null ∨ (∃ b, v = .bool b) ∨ (∃ n, v = .num n)) →
        flaskMakeResponse v = .error .typeError
        ∧ respOf env .polygons req = internalServerError
        ∧ (respOf env .polygons req).status = 500)) := by
  constructor
  · intro hfile hparse
    have hd := dispatch_points_ok env req c v hfile hparse
    constructor
    · intro s hv
      subst hv
      exact ⟨by simp [respOf, hd, flaskFinalize, flaskMakeResponse], by decide⟩
    · rintro (hv | ⟨b, hv⟩ | ⟨n, hv⟩) <;> subst hv <;>
        exact ⟨rfl, by simp [respOf, hd, flaskFinalize, flaskMakeResponse], by
          simp [respOf, hd, flaskFinalize, flaskMakeResponse, internalServerError]⟩
  · intro hfile hparse
    have hd := dispatch_polygons_ok env req c v hfile hparse
    constructor
    · intro s hv
      subst hv
      exact ⟨by simp [respOf, hd, flaskFinalize, flaskMakeResponse], by decide⟩
    · rintro (hv | ⟨b, hv⟩ | ⟨n, hv⟩) <;> subst hv <;>
        exact ⟨rfl, by simp [respOf, hd, flaskFinalize, flaskMakeResponse], by
          simp [respOf, hd, flaskFinalize, flaskMakeResponse, internalServerError]⟩

/-- Witness for C10 at a file holding the JSON document 7. -/
theorem non_collection_toplevel_witness :
    (Env.mk (fun _ => some numText) (fun _ => none)).fs pointsPath = some numText
    ∧ jsonParse numText = some (Json.num 7)
    ∧ flaskMakeResponse (Json.num 7) = .error .typeError
    ∧ respOf (Env.mk (fun _ => some numText) (fun _ => none)) .points sampleReq
        = internalServerError
    ∧ (respOf (Env.mk (fun _ => some numText) (fun _ => none)) .points
        sampleReq).status = 500 := by
  have H := ((non_collection_toplevel (Env.mk (fun _ => some numText) (fun _ => none))
      sampleReq numText (Json.num 7)).1 rfl rfl).2 (Or.inr (Or.inr ⟨7, rfl⟩))
  exact ⟨rfl, rfl, H.1, H.2.1, H.2.2⟩
